import Mathlib

/-!
Shallow embedding of the delta-sync logic of the camtools repository
(`camera.py` and `adb-rsync.py`), together with theorems settling the
spec's claims about it.

The embedding follows the source:
* `camera.py` `get_file_list` / `sync_files_org`: listing as relative
  path strings (remote listing excludes `.trashed*` basenames), delta as
  the python set difference `set(remote) - set(local)`, sorted.
* `camera.py` `sync_files` (the fallback path after `adb sync` fails):
  extraction of relative paths from `find` output lines by the three
  directory markers, hidden-basename filtering on both sides, the path
  set difference, and the pull loop with its per-file try/except.
* `adb-rsync.py`: `run_adb_command`'s check semantics, `sync_file`'s
  hash short-circuit and pull, `sync_directory`'s per-directory
  success/total counting, the recursive listing, and `main`'s
  device/remote-dir gating and dry-run/list-only branch.

Machine-level details (actual adb transport, file contents on disk) are
abstracted by explicit oracles passed as function arguments; everything
the claims quantify over is computed by the definitions below.
-/

namespace Camtools

/-! ### String helpers mirroring the python string/path operations -/

/-- Split a character list at every occurrence of the separator
character, mirroring `str.split(sep)` for a one-character separator. -/
def splitOnCharAux (c : Char) : List Char → List Char → List (List Char)
  | [], cur => [cur.reverse]
  | x :: t, cur =>
      if x = c then cur.reverse :: splitOnCharAux c t []
      else splitOnCharAux c t (x :: cur)

def splitOnChar (c : Char) (l : List Char) : List (List Char) :=
  splitOnCharAux c l []

/-- `os.path.basename`: the part of the path after the last `/`. -/
def basename (p : String) : String :=
  String.mk ((splitOnChar '/' p.toList).getLastD [])

/-- `str.startswith(pre)`. -/
def strStartsWith (s pre : String) : Bool :=
  List.isPrefixOf pre.toList s.toList

/-- Python whitespace test used by `str.strip()`. -/
def isSpaceChar (c : Char) : Bool :=
  c = ' ' || c = '\t' || c = '\n' || c = '\r'

/-- `str.strip()`. -/
def pyStrip (s : String) : String :=
  String.mk (((s.toList.dropWhile isSpaceChar).reverse.dropWhile isSpaceChar).reverse)

/-- The suffix of `l` after the first occurrence of `pre`:
`line.split(marker, 1)[1]` guarded by `marker in line`.  `none` when
`pre` does not occur in `l`. -/
def afterFirst (pre : List Char) : List Char → Option (List Char)
  | [] => none
  | x :: t =>
      if List.isPrefixOf pre (x :: t) then some (List.drop pre.length (x :: t))
      else afterFirst pre t

/-! ### Sorting and python set difference -/

/-- Boolean lexicographic order on character lists. -/
def charListLe : List Char → List Char → Bool
  | [], _ => true
  | _ :: _, [] => false
  | x :: xs, y :: ys => if x = y then charListLe xs ys else decide (x < y)

def strLe (a b : String) : Bool := charListLe a.toList b.toList

def insertSorted (x : String) : List String → List String
  | [] => [x]
  | y :: t => if strLe x y then x :: y :: t else y :: insertSorted x t

/-- `sorted(...)` on a list of strings. -/
def pySorted (l : List String) : List String := l.foldr insertSorted []

/-- `sorted(set(r) - set(l))`: the python set difference used by the
delta computations, as a deduplicated sorted list. -/
def pySetDiff (r l : List String) : List String :=
  pySorted ((r.filter (fun p => decide (p ∉ l))).dedup)

/-! ### `camera.py` `get_file_list` and the `sync_files_org` delta -/

/-- One entry of a store (remote or local directory tree), as the
enumeration commands see it: a path relative to the store root, whether
it is a regular file, and the size/mtime metadata that exists on disk
but that the listing commands do not report. -/
structure Entry where
  relPath : String
  isFile : Bool
  size : Nat
  mtime : Nat
deriving DecidableEq, Repr

/-- `camera.py` `get_file_list(directory, is_remote)`: relative paths of
regular files, sorted.  The remote branch runs
`find . -type f -not -name '.trashed*' -printf '%P\n'`, so it keeps only
regular files whose basename does not start with `.trashed`; the local
branch keeps every regular file found by `Path(directory).rglob("*")`.
Only the relative path is returned — no size or mtime. -/
def get_file_list (entries : List Entry) (isRemote : Bool) : List String :=
  if isRemote then
    pySorted ((entries.filter
      (fun e => e.isFile && !(strStartsWith (basename e.relPath) ".trashed"))).map
      (fun e => e.relPath))
  else
    pySorted ((entries.filter (fun e => e.isFile)).map (fun e => e.relPath))

/-- The delta computed by `camera.py` `sync_files_org`:
`new_files = sorted(set(remote_files) - set(local_files))`. -/
def sync_files_org_plan (remoteStore localStore : List Entry) : List String :=
  pySetDiff (get_file_list remoteStore true) (get_file_list localStore false)

/-! ### `camera.py` `sync_files`: the fallback pull path -/

/-- The three directory markers `sync_files` looks for inside each
`find` output line to turn it into a path relative to the camera
folder. -/
def pathMarkers : List String := ["/DCIM/Camera/", "/100ANDRO/Camera/", "/Camera/"]

/-- Try the markers in order; on the first marker occurring in the line,
return the part of the line after its first occurrence
(`line.split(marker, 1)[1]`; the `break` in the source means later
markers are not tried once one matched). -/
def relAfterMarker (line : String) : List String → Option String
  | [] => none
  | m :: rest =>
      match afterFirst m.toList line.toList with
      | some relChars => some (String.mk relChars)
      | none => relAfterMarker line rest

/-- The relative path `sync_files` adds to `remote_files` for one output
line of the remote `find` command, if any: the line is stripped, empty
lines are skipped, a marker must occur in the line, and the extracted
relative path must be nonempty with a basename not starting with `.`. -/
def candidateOfLine (rawLine : String) : Option String :=
  if (pyStrip rawLine).toList.isEmpty then none
  else
    match relAfterMarker (pyStrip rawLine) pathMarkers with
    | none => none
    | some rel =>
        if !rel.toList.isEmpty && !(strStartsWith (basename rel) ".") then some rel
        else none

/-- The `remote_files` set built by the fallback path of `sync_files`
from the raw `find` output lines. -/
def remoteCandidates (lines : List String) : List String :=
  (lines.filterMap candidateOfLine).dedup

/-- The local destination directory, as an association of relative file
path to file content (represented by a `Nat`). -/
abbrev LocalStore := List (String × Nat)

def storeLookup (store : LocalStore) (p : String) : Option Nat :=
  (store.find? (fun e => decide (e.1 = p))).map Prod.snd

/-- The `local_files` set built by `sync_files`: relative paths of local
files whose basename does not start with `.`. -/
def localFilesOf (store : LocalStore) : List String :=
  ((store.map Prod.fst).filter (fun r => !(strStartsWith (basename r) "."))).dedup

/-- `to_download = sorted(remote_files - local_files)`. -/
def toDownload (lines : List String) (store : LocalStore) : List String :=
  pySetDiff (remoteCandidates lines) (localFilesOf store)

/-- State threaded through the download loop of `sync_files`: the local
store being written, the `success` counter, and the relative paths for
which the loop printed `失敗` (pull raised) or `警告…跳過` (no source
path found). -/
structure PullState where
  store : LocalStore
  success : Nat
  failed : List String
  skipped : List String
deriving Repr

/-- The download loop of `sync_files`.  `srcFound rel` says whether any
candidate source path passed the remote `test -f`; `pullOk rel` says
whether `adb pull` succeeded; `remoteContent rel` is the content pulled.
On success the destination file is written and `success` incremented; on
a pull exception the failure is printed and the loop continues; when no
source path is found the file is skipped and the loop continues. -/
def runPulls (srcFound pullOk : String → Bool) (remoteContent : String → Nat) :
    List String → PullState → PullState
  | [], st => st
  | rel :: rest, st =>
      if srcFound rel then
        if pullOk rel then
          runPulls srcFound pullOk remoteContent rest
            { st with store := (rel, remoteContent rel) :: st.store,
                      success := st.success + 1 }
        else
          runPulls srcFound pullOk remoteContent rest
            { st with failed := st.failed ++ [rel] }
      else
        runPulls srcFound pullOk remoteContent rest
          { st with skipped := st.skipped ++ [rel] }

/-- Result of one run of the `sync_files` fallback path (exit status of
the process, final local store, and the printed summary data). -/
structure CameraSyncResult where
  exitCode : Nat
  finalStore : LocalStore
  success : Nat
  attempted : Nat
  failed : List String
  skipped : List String
deriving Repr

/-- The fallback portion of `camera.py` `sync_files` (lines 295–369):
build `remote_files` from the `find` output, return early when it is
empty, build `local_files`, compute `to_download`, return early when it
is empty, otherwise run the download loop and print the
`成功下載 success/len(to_download)` summary.  Every branch returns
normally, so the process exit status is 0. -/
def sync_files_fallback (lines : List String) (store : LocalStore)
    (srcFound pullOk : String → Bool) (remoteContent : String → Nat) :
    CameraSyncResult :=
  if (remoteCandidates lines).isEmpty then
    ⟨0, store, 0, 0, [], []⟩
  else if (toDownload lines store).isEmpty then
    ⟨0, store, 0, 0, [], []⟩
  else
    ⟨0,
     (runPulls srcFound pullOk remoteContent (toDownload lines store) ⟨store, 0, [], []⟩).store,
     (runPulls srcFound pullOk remoteContent (toDownload lines store) ⟨store, 0, [], []⟩).success,
     (toDownload lines store).length,
     (runPulls srcFound pullOk remoteContent (toDownload lines store) ⟨store, 0, [], []⟩).failed,
     (runPulls srcFound pullOk remoteContent (toDownload lines store) ⟨store, 0, [], []⟩).skipped⟩

/-- `camera.py` `sync_files` preceded by `check_adb`: when adb is absent
or no device is connected the process exits with status 1 before any
listing or transfer; `adbOk` bundles both checks.  The happy-path
`adb sync` shortcut is taken as having failed (`adbSyncOk = false` in
the runs the claims are about), so the fallback runs. -/
def camera_sync_files (adbOk : Bool) (lines : List String) (store : LocalStore)
    (srcFound pullOk : String → Bool) (remoteContent : String → Nat) :
    CameraSyncResult :=
  if adbOk then sync_files_fallback lines store srcFound pullOk remoteContent
  else ⟨1, store, 0, 0, [], []⟩

/-- `camera.py` `check_adb`: `some exitCode` when the run aborts there
(`sys.exit(1)` when adb is not installed or `adb get-state` fails),
`none` when the checks pass. -/
def check_adb (adbInstalled deviceConnected : Bool) : Option Nat :=
  if !adbInstalled then some 1
  else if !deviceConnected then some 1
  else none

/-! ### `adb-rsync.py` model -/

/-- `adb-rsync.py` `run_adb_command(command, check)`: returns the
command's stdout, or `none` when `check` is true and the command exited
non-zero (the `CalledProcessError` branch).  With `check=False` no
exception is raised, so the result is never `none`. -/
def run_adb_command (exitOk : Bool) (output : String) (check : Bool) : Option String :=
  if check && !exitOk then none else some output

/-- `adb-rsync.py` `sync_file`: if the local file exists and both hashes
are available and equal, report up-to-date without pulling; otherwise
run `adb pull` with `check=False` and report failure only when
`run_adb_command` returned `None` — which it never does with
`check=False`, so the pull is reported successful regardless of its
exit status. -/
def sync_file (localExists hashesMatch pullExitOk : Bool) : Bool :=
  if localExists && hashesMatch then true
  else
    match run_adb_command pullExitOk "" false with
    | none => false
    | some _ => true

/-- A node of the remote directory tree as `adb shell ls -la` reports
it: a regular file with some content, or a directory with children. -/
inductive RNode where
  | file (name : String) (content : Nat)
  | dir (name : String) (children : List RNode)
deriving Repr

/-- Accumulated effects of `sync_directory` over the entries of one
directory: the per-directory `success_count` and `total_count`, the
remote file paths handed to `sync_file`, the paths actually passed to
`adb pull`, the attempted files whose pull exited non-zero, and the
local directories created. -/
structure DirAcc where
  succ : Nat
  total : Nat
  attempted : List String
  pulls : List String
  failed : List String
  dirsCreated : List String
deriving Repr

/-- The loop body of `adb-rsync.py` `sync_directory`: for a file entry,
call `sync_file` on `remote_dir/name`; for a directory entry, recurse
(creating the local subdirectory first) and count the subdirectory as
one succeeded item iff the recursive call returned True, which per the
source is `success_count == total_count` over a non-empty listing. -/
def syncItems (lE hM pE : String → Bool) (rPath lPath : String) : List RNode → DirAcc
  | [] => ⟨0, 0, [], [], [], []⟩
  | RNode.file name _ :: rest =>
      let rp := rPath ++ "/" ++ name
      let ok := sync_file (lE rp) (hM rp) (pE rp)
      let pulled : List String := if lE rp && hM rp then [] else [rp]
      let r := syncItems lE hM pE rPath lPath rest
      ⟨(if ok then 1 else 0) + r.succ, 1 + r.total, rp :: r.attempted,
       pulled ++ r.pulls, (if pE rp then [] else pulled) ++ r.failed, r.dirsCreated⟩
  | RNode.dir name cs :: rest =>
      let sub := syncItems lE hM pE (rPath ++ "/" ++ name) (lPath ++ "/" ++ name) cs
      let subOk := !cs.isEmpty && (sub.succ == sub.total)
      let r := syncItems lE hM pE rPath lPath rest
      ⟨(if subOk then 1 else 0) + r.succ, 1 + r.total, sub.attempted ++ r.attempted,
       sub.pulls ++ r.pulls, sub.failed ++ r.failed,
       ((lPath ++ "/" ++ name) :: sub.dirsCreated) ++ r.dirsCreated⟩

/-- `sync_directory(remote_dir, local_dir)`: returns False when the
directory listing is empty (`No files found`), otherwise syncs every
entry and returns `success_count == total_count`. -/
def sync_directory_ok (lE hM pE : String → Bool) (rPath lPath : String)
    (children : List RNode) : Bool :=
  if children.isEmpty then false
  else (syncItems lE hM pE rPath lPath children).succ
        == (syncItems lE hM pE rPath lPath children).total

/-- One level of `list_remote_dir`: `(absolute path, is-directory)` for
each entry. -/
def levelEntries (parent : String) (children : List RNode) : List (String × Bool) :=
  children.map fun n =>
    match n with
    | RNode.file name _ => (parent ++ "/" ++ name, false)
    | RNode.dir name _ => (parent ++ "/" ++ name, true)

/-- The recursive part of `list_remote_dir(..., recursive=True)`: the
full listings of the subdirectories, appended in entry order after the
current level. -/
def subEntries (parent : String) : List RNode → List (String × Bool)
  | [] => []
  | RNode.file _ _ :: rest => subEntries parent rest
  | RNode.dir name cs :: rest =>
      (levelEntries (parent ++ "/" ++ name) cs ++ subEntries (parent ++ "/" ++ name) cs)
        ++ subEntries parent rest

/-- `list_remote_dir(path, recursive=True)`. -/
def list_remote_dir_rec (parent : String) (children : List RNode) : List (String × Bool) :=
  levelEntries parent children ++ subEntries parent children

/-- The paths of the non-directory entries of a listing (the dry-run
branch prints `file_info['path']` for entries whose permissions do not
start with `d`). -/
def fileEntryPaths (es : List (String × Bool)) : List String :=
  (es.filter (fun e => !e.2)).map Prod.fst

/-- The paths printed by the dry-run/list-only branch of `main`: the
non-directory entries of the recursive listing. -/
def listedFiles (parent : String) (children : List RNode) : List String :=
  fileEntryPaths (list_remote_dir_rec parent children)

/-- All regular-file paths at or below a directory, depth-first. -/
def allFiles (parent : String) : List RNode → List String
  | [] => []
  | RNode.file name _ :: rest => (parent ++ "/" ++ name) :: allFiles parent rest
  | RNode.dir name cs :: rest =>
      allFiles (parent ++ "/" ++ name) cs ++ allFiles parent rest

/-- Observable outcome of one `adb-rsync.py` run: process exit status,
remote paths passed to `adb pull`, local directories created, paths
printed by the dry-run/list-only branch, and the root-level
success/total counts. -/
structure AdbResult where
  exitCode : Nat
  pulls : List String
  dirsCreated : List String
  listed : List String
  succ : Nat
  total : Nat
deriving Repr

/-- `adb-rsync.py` `main`: abort with exit status 1 when no device is
connected or when the remote root fails `test -d`, both before any
transfer; with `--dry-run` or `--list-only`, print the recursive file
listing and exit 0 without creating directories or pulling anything;
otherwise run `sync_directory` and exit 0 iff it returned True. -/
def adb_rsync_main (devicesOk remoteDirOk dryRun listOnly : Bool)
    (lE hM pE : String → Bool) (remoteRoot localRoot : String)
    (tree : List RNode) : AdbResult :=
  if !devicesOk then ⟨1, [], [], [], 0, 0⟩
  else if !remoteDirOk then ⟨1, [], [], [], 0, 0⟩
  else if dryRun || listOnly then ⟨0, [], [], listedFiles remoteRoot tree, 0, 0⟩
  else
    ⟨if sync_directory_ok lE hM pE remoteRoot localRoot tree then 0 else 1,
     (syncItems lE hM pE remoteRoot localRoot tree).pulls,
     localRoot :: (syncItems lE hM pE remoteRoot localRoot tree).dirsCreated,
     [],
     (syncItems lE hM pE remoteRoot localRoot tree).succ,
     (syncItems lE hM pE remoteRoot localRoot tree).total⟩

/-! ### Lemmas -/

theorem mem_insertSorted {p x : String} {l : List String} :
    p ∈ insertSorted x l ↔ p = x ∨ p ∈ l := by
  induction l with
  | nil => simp [insertSorted]
  | cons y t ih =>
      by_cases h : strLe x y = true
      · simp [insertSorted, h]
      · simp only [insertSorted, h, if_neg, Bool.not_eq_true, if_false]
        simp [List.mem_cons, ih]
        tauto

theorem mem_pySorted {p : String} {l : List String} :
    p ∈ pySorted l ↔ p ∈ l := by
  induction l with
  | nil => simp [pySorted]
  | cons x t ih =>
      simp only [pySorted, List.foldr_cons] at *
      rw [mem_insertSorted, ih, List.mem_cons]

theorem mem_pySetDiff {p : String} {r l : List String} :
    p ∈ pySetDiff r l ↔ p ∈ r ∧ p ∉ l := by
  simp [pySetDiff, mem_pySorted, List.mem_dedup, List.mem_filter]

theorem pySetDiff_eq_nil {r l : List String} :
    pySetDiff r l = [] ↔ ∀ p ∈ r, p ∈ l := by
  rw [List.eq_nil_iff_forall_not_mem]
  constructor
  · intro h p hp
    by_contra hnp
    exact h p (mem_pySetDiff.mpr ⟨hp, hnp⟩)
  · intro h p hp
    rcases mem_pySetDiff.mp hp with ⟨h1, h2⟩
    exact h2 (h p h1)

theorem mem_get_file_list_remote {p : String} {entries : List Entry} :
    p ∈ get_file_list entries true ↔
      ∃ e ∈ entries, e.isFile = true ∧
        strStartsWith (basename e.relPath) ".trashed" = false ∧ e.relPath = p := by
  simp only [get_file_list, if_true, mem_pySorted, List.mem_map, List.mem_filter,
    Bool.and_eq_true, Bool.not_eq_true']
  tauto

theorem mem_get_file_list_local {p : String} {entries : List Entry} :
    p ∈ get_file_list entries false ↔
      ∃ e ∈ entries, e.isFile = true ∧ e.relPath = p := by
  simp only [get_file_list, Bool.false_eq_true, if_false, mem_pySorted, List.mem_map,
    List.mem_filter]
  tauto

theorem mem_sync_files_org_plan {p : String} {R L : List Entry} :
    p ∈ sync_files_org_plan R L ↔
      (∃ e ∈ R, e.isFile = true ∧
        strStartsWith (basename e.relPath) ".trashed" = false ∧ e.relPath = p) ∧
      ¬ (∃ e ∈ L, e.isFile = true ∧ e.relPath = p) := by
  rw [sync_files_org_plan, mem_pySetDiff, mem_get_file_list_remote,
    mem_get_file_list_local]

theorem candidateOfLine_some {l r : String} (h : candidateOfLine l = some r) :
    r.toList.isEmpty = false ∧ strStartsWith (basename r) "." = false := by
  unfold candidateOfLine at h
  split at h
  · exact absurd h (by simp)
  · split at h
    · exact absurd h (by simp)
    · split at h
      · rename_i hc
        cases h
        rw [Bool.and_eq_true, Bool.not_eq_true', Bool.not_eq_true'] at hc
        exact hc
      · exact absurd h (by simp)

theorem mem_remoteCandidates {p : String} {lines : List String} :
    p ∈ remoteCandidates lines ↔ ∃ l ∈ lines, candidateOfLine l = some p := by
  simp [remoteCandidates, List.mem_dedup, List.mem_filterMap]

theorem remoteCandidates_not_hidden {p : String} {lines : List String}
    (h : p ∈ remoteCandidates lines) : strStartsWith (basename p) "." = false := by
  rcases mem_remoteCandidates.mp h with ⟨l, _, hc⟩
  exact (candidateOfLine_some hc).2

theorem mem_localFilesOf {p : String} {store : LocalStore} :
    p ∈ localFilesOf store ↔
      p ∈ store.map Prod.fst ∧ strStartsWith (basename p) "." = false := by
  simp [localFilesOf, List.mem_dedup, List.mem_filter, Bool.not_eq_true']

theorem mem_toDownload {p : String} {lines : List String} {store : LocalStore} :
    p ∈ toDownload lines store ↔
      p ∈ remoteCandidates lines ∧ p ∉ localFilesOf store := by
  rw [toDownload, mem_pySetDiff]

/-- Per-file accounting of the download loop: each planned file's
outcome is determined by its own oracles alone, so a failing pull never
changes what happens to the files after it. -/
theorem runPulls_counts (f g : String → Bool) (c : String → Nat)
    (plan : List String) (st : PullState) :
    (runPulls f g c plan st).success
        = st.success + (plan.filter (fun r => f r && g r)).length ∧
    (runPulls f g c plan st).failed
        = st.failed ++ plan.filter (fun r => f r && !g r) ∧
    (runPulls f g c plan st).skipped
        = st.skipped ++ plan.filter (fun r => !f r) := by
  induction plan generalizing st with
  | nil => simp [runPulls]
  | cons rel rest ih =>
      cases hf : f rel with
      | true =>
          cases hg : g rel with
          | true =>
              rw [runPulls, if_pos hf, if_pos hg]
              obtain ⟨h1, h2, h3⟩ := ih
                { st with store := (rel, c rel) :: st.store, success := st.success + 1 }
              refine ⟨?_, ?_, ?_⟩
              · rw [h1, List.filter_cons_of_pos (by simp [hf, hg]), List.length_cons]
                show st.success + 1 + _ = _
                omega
              · rw [h2, List.filter_cons_of_neg (by simp [hf, hg])]
              · rw [h3, List.filter_cons_of_neg (by simp [hf])]
          | false =>
              rw [runPulls, if_pos hf, if_neg (by simp [hg])]
              obtain ⟨h1, h2, h3⟩ := ih { st with failed := st.failed ++ [rel] }
              refine ⟨?_, ?_, ?_⟩
              · rw [h1, List.filter_cons_of_neg (by simp [hg])]
              · rw [h2, List.filter_cons_of_pos (by simp [hf, hg])]
                show (st.failed ++ [rel]) ++ _ = _
                simp
              · rw [h3, List.filter_cons_of_neg (by simp [hf])]
      | false =>
          rw [runPulls, if_neg (by simp [hf])]
          obtain ⟨h1, h2, h3⟩ := ih { st with skipped := st.skipped ++ [rel] }
          refine ⟨?_, ?_, ?_⟩
          · rw [h1, List.filter_cons_of_neg (by simp [hf])]
          · rw [h2, List.filter_cons_of_neg (by simp [hf])]
          · rw [h3, List.filter_cons_of_pos (by simp [hf])]
            show (st.skipped ++ [rel]) ++ _ = _
            simp

theorem runPulls_store_mem (f g : String → Bool) (c : String → Nat)
    (plan : List String) (st : PullState) (p : String) :
    p ∈ (runPulls f g c plan st).store.map Prod.fst ↔
      p ∈ st.store.map Prod.fst ∨ (p ∈ plan ∧ f p = true ∧ g p = true) := by
  induction plan generalizing st with
  | nil => simp [runPulls]
  | cons rel rest ih =>
      by_cases hf : f rel = true
      · by_cases hg : g rel = true
        · rw [runPulls, if_pos hf, if_pos hg, ih]
          simp only [List.map_cons, List.mem_cons]
          constructor
          · rintro ((rfl | h) | ⟨h1, h2, h3⟩)
            · exact Or.inr ⟨Or.inl rfl, hf, hg⟩
            · exact Or.inl h
            · exact Or.inr ⟨Or.inr h1, h2, h3⟩
          · rintro (h | ⟨rfl | h1, h2, h3⟩)
            · exact Or.inl (Or.inr h)
            · exact Or.inl (Or.inl rfl)
            · exact Or.inr ⟨h1, h2, h3⟩
        · rw [runPulls, if_pos hf, if_neg hg, ih]
          simp only [List.mem_cons]
          constructor
          · rintro (h | ⟨h1, h2, h3⟩)
            · exact Or.inl h
            · exact Or.inr ⟨Or.inr h1, h2, h3⟩
          · rintro (h | ⟨rfl | h1, h2, h3⟩)
            · exact Or.inl h
            · exact absurd h3 hg
            · exact Or.inr ⟨h1, h2, h3⟩
      · rw [runPulls, if_neg hf, ih]
        simp only [List.mem_cons]
        constructor
        · rintro (h | ⟨h1, h2, h3⟩)
          · exact Or.inl h
          · exact Or.inr ⟨Or.inr h1, h2, h3⟩
        · rintro (h | ⟨rfl | h1, h2, h3⟩)
          · exact Or.inl h
          · exact absurd h2 hf
          · exact Or.inr ⟨h1, h2, h3⟩

/-- Frame lemma: files outside the plan are never touched by the
download loop. -/
theorem runPulls_lookup_of_not_mem (f g : String → Bool) (c : String → Nat)
    {plan : List String} {p : String} (hp : p ∉ plan) (st : PullState) :
    storeLookup (runPulls f g c plan st).store p = storeLookup st.store p := by
  induction plan generalizing st with
  | nil => simp [runPulls]
  | cons rel rest ih =>
      have hrel : rel ≠ p := fun h => hp (by rw [← h]; exact List.mem_cons_self rel rest)
      have hrest : p ∉ rest := fun h => hp (List.mem_cons_of_mem rel h)
      by_cases hf : f rel = true
      · by_cases hg : g rel = true
        · rw [runPulls, if_pos hf, if_pos hg, ih hrest]
          simp [storeLookup, List.find?_cons, hrel]
        · rw [runPulls, if_pos hf, if_neg hg]
          exact ih hrest _
      · rw [runPulls, if_neg hf]
        exact ih hrest _

theorem runPulls_failed_sub (f g : String → Bool) (c : String → Nat)
    (plan : List String) (st : PullState) {p : String}
    (h : p ∈ (runPulls f g c plan st).failed) : p ∈ st.failed ∨ p ∈ plan := by
  rw [(runPulls_counts f g c plan st).2.1] at h
  rcases List.mem_append.mp h with h | h
  · exact Or.inl h
  · exact Or.inr (List.mem_of_mem_filter h)

theorem runPulls_skipped_sub (f g : String → Bool) (c : String → Nat)
    (plan : List String) (st : PullState) {p : String}
    (h : p ∈ (runPulls f g c plan st).skipped) : p ∈ st.skipped ∨ p ∈ plan := by
  rw [(runPulls_counts f g c plan st).2.2] at h
  rcases List.mem_append.mp h with h | h
  · exact Or.inl h
  · exact Or.inr (List.mem_of_mem_filter h)

theorem sync_files_fallback_frame (lines : List String) (store : LocalStore)
    (f g : String → Bool) (c : String → Nat) {p : String}
    (hp : p ∉ remoteCandidates lines) :
    storeLookup (sync_files_fallback lines store f g c).finalStore p
        = storeLookup store p ∧
    p ∉ (sync_files_fallback lines store f g c).failed ∧
    p ∉ (sync_files_fallback lines store f g c).skipped := by
  have hplan : p ∉ toDownload lines store :=
    fun h => hp (mem_toDownload.mp h).1
  unfold sync_files_fallback
  split
  · exact ⟨rfl, by simp, by simp⟩
  · split
    · exact ⟨rfl, by simp, by simp⟩
    · refine ⟨runPulls_lookup_of_not_mem f g c hplan _, ?_, ?_⟩
      · intro hmem
        rcases runPulls_failed_sub f g c _ _ hmem with h | h
        · exact absurd h (by simp)
        · exact hplan h
      · intro hmem
        rcases runPulls_skipped_sub f g c _ _ hmem with h | h
        · exact absurd h (by simp)
        · exact hplan h

theorem sync_files_fallback_writes (lines : List String) (store : LocalStore)
    (f g : String → Bool) (c : String → Nat) {q : String}
    (hq : q ∈ (sync_files_fallback lines store f g c).finalStore.map Prod.fst) :
    q ∈ store.map Prod.fst ∨ q ∈ toDownload lines store := by
  revert hq
  unfold sync_files_fallback
  split
  · exact fun hq => Or.inl hq
  · split
    · exact fun hq => Or.inl hq
    · intro hq
      rcases (runPulls_store_mem f g c _ _ q).mp hq with h | h
      · exact Or.inl h
      · exact Or.inr h.1

theorem sync_files_fallback_empty_plan (lines : List String) (store : LocalStore)
    (f g : String → Bool) (c : String → Nat) (h : toDownload lines store = []) :
    sync_files_fallback lines store f g c = ⟨0, store, 0, 0, [], []⟩ := by
  unfold sync_files_fallback
  split
  · rfl
  · rw [if_pos (by rw [h]; rfl)]

theorem toDownload_after_success (lines : List String) (store : LocalStore)
    (f g : String → Bool) (c : String → Nat)
    (hall : ∀ r ∈ toDownload lines store, f r = true ∧ g r = true) :
    toDownload lines (sync_files_fallback lines store f g c).finalStore = [] := by
  unfold sync_files_fallback
  split
  · rename_i hre
    rw [List.isEmpty_iff] at hre
    show toDownload lines store = []
    rw [toDownload, pySetDiff_eq_nil]
    intro p hp
    rw [hre] at hp
    exact absurd hp (List.not_mem_nil p)
  · split
    · rename_i hpl
      rw [List.isEmpty_iff] at hpl
      exact hpl
    · show toDownload lines
        (runPulls f g c (toDownload lines store) ⟨store, 0, [], []⟩).store = []
      rw [toDownload, pySetDiff_eq_nil]
      intro p hp
      rw [mem_localFilesOf]
      refine ⟨?_, remoteCandidates_not_hidden hp⟩
      rw [runPulls_store_mem]
      by_cases hmem : p ∈ toDownload lines store
      · rcases hall p hmem with ⟨hf, hg⟩
        exact Or.inr ⟨hmem, hf, hg⟩
      · have hloc : p ∈ localFilesOf store := by
          by_contra hloc
          exact hmem (mem_toDownload.mpr ⟨hp, hloc⟩)
        exact Or.inl (mem_localFilesOf.mp hloc).1

/-! ### Lemmas about the `adb-rsync.py` model -/

theorem sync_file_true (a b c : Bool) : sync_file a b c = true := by
  unfold sync_file run_adb_command
  split <;> rfl

theorem syncItems_attempted (lE hM pE : String → Bool) (rPath lPath : String)
    (l : List RNode) :
    (syncItems lE hM pE rPath lPath l).attempted = allFiles rPath l := by
  induction rPath, l using allFiles.induct generalizing lPath with
  | case1 parent => simp [syncItems, allFiles]
  | case2 parent name content rest ih => simp [syncItems, allFiles, ih]
  | case3 parent name cs rest ih1 ih2 => simp [syncItems, allFiles, ih1, ih2]

theorem fileEntryPaths_append (a b : List (String × Bool)) :
    fileEntryPaths (a ++ b) = fileEntryPaths a ++ fileEntryPaths b := by
  simp [fileEntryPaths]

theorem fileEntryPaths_level_file (parent name : String) (content : Nat)
    (rest : List RNode) :
    fileEntryPaths (levelEntries parent (RNode.file name content :: rest))
      = (parent ++ "/" ++ name) :: fileEntryPaths (levelEntries parent rest) := by
  simp [fileEntryPaths, levelEntries]

theorem fileEntryPaths_level_dir (parent name : String) (cs rest : List RNode) :
    fileEntryPaths (levelEntries parent (RNode.dir name cs :: rest))
      = fileEntryPaths (levelEntries parent rest) := by
  simp [fileEntryPaths, levelEntries]

theorem mem_listedFiles {p : String} (parent : String) (l : List RNode) :
    p ∈ listedFiles parent l ↔ p ∈ allFiles parent l := by
  have key : ∀ parent : String, ∀ l : List RNode,
      (p ∈ fileEntryPaths (levelEntries parent l) ∨
       p ∈ fileEntryPaths (subEntries parent l)) ↔
      p ∈ allFiles parent l := by
    intro parent l
    induction parent, l using allFiles.induct with
    | case1 parent => simp [fileEntryPaths, levelEntries, subEntries, allFiles]
    | case2 parent name content rest ih =>
        rw [fileEntryPaths_level_file]
        simp only [subEntries, allFiles, List.mem_cons]
        tauto
    | case3 parent name cs rest ih1 ih2 =>
        rw [fileEntryPaths_level_dir]
        simp only [subEntries, fileEntryPaths_append, allFiles, List.mem_append]
        tauto
  rw [listedFiles, list_remote_dir_rec, fileEntryPaths_append, List.mem_append]
  exact key parent l

theorem syncItems_pull_oracle_independent (lE hM pE1 pE2 : String → Bool)
    (rPath lPath : String) (l : List RNode) :
    (syncItems lE hM pE1 rPath lPath l).succ = (syncItems lE hM pE2 rPath lPath l).succ ∧
    (syncItems lE hM pE1 rPath lPath l).total
      = (syncItems lE hM pE2 rPath lPath l).total := by
  induction rPath, l using allFiles.induct generalizing lPath with
  | case1 parent => simp [syncItems]
  | case2 parent name content rest ih =>
      obtain ⟨h1, h2⟩ := ih lPath
      simp [syncItems, sync_file_true, h1, h2]
  | case3 parent name cs rest ih1 ih2 =>
      obtain ⟨hs1, hs2⟩ := ih1 (lPath ++ "/" ++ name)
      obtain ⟨hr1, hr2⟩ := ih2 lPath
      simp only [syncItems, hr1, hr2]
      rw [hs1, hs2]
      simp

theorem filter_three_partition (f g : String → Bool) (plan : List String) :
    (plan.filter (fun r => f r && g r)).length
      + (plan.filter (fun r => f r && !g r)).length
      + (plan.filter (fun r => !f r)).length = plan.length := by
  induction plan with
  | nil => rfl
  | cons r t ih =>
      cases hf : f r <;> cases hg : g r <;>
        simp [List.filter_cons, hf, hg] <;> omega

theorem sync_files_fallback_exit (lines : List String) (store : LocalStore)
    (f g : String → Bool) (c : String → Nat) :
    (sync_files_fallback lines store f g c).exitCode = 0 := by
  unfold sync_files_fallback
  split
  · rfl
  · split <;> rfl

theorem sync_files_fallback_summary (lines : List String) (store : LocalStore)
    (f g : String → Bool) (c : String → Nat) :
    (sync_files_fallback lines store f g c).success
      + (sync_files_fallback lines store f g c).failed.length
      + (sync_files_fallback lines store f g c).skipped.length
      = (sync_files_fallback lines store f g c).attempted := by
  unfold sync_files_fallback
  split
  · rfl
  · split
    · rfl
    · obtain ⟨h1, h2, h3⟩ := runPulls_counts f g c (toDownload lines store) ⟨store, 0, [], []⟩
      show (runPulls f g c (toDownload lines store) ⟨store, 0, [], []⟩).success + _ + _ = _
      rw [h1, h2, h3]
      show 0 + _ + ([] ++ _ : List String).length + ([] ++ _ : List String).length = _
      simp only [List.nil_append, Nat.zero_add]
      exact filter_three_partition f g (toDownload lines store)

theorem sync_directory_ok_pull_independent (lE hM pE1 pE2 : String → Bool)
    (rPath lPath : String) (tree : List RNode) :
    sync_directory_ok lE hM pE1 rPath lPath tree
      = sync_directory_ok lE hM pE2 rPath lPath tree := by
  unfold sync_directory_ok
  obtain ⟨h1, h2⟩ := syncItems_pull_oracle_independent lE hM pE1 pE2 rPath lPath tree
  rw [h1, h2]

theorem adb_exit_pull_independent (devicesOk remoteDirOk dryRun listOnly : Bool)
    (lE hM pE1 pE2 : String → Bool) (remoteRoot localRoot : String)
    (tree : List RNode) :
    (adb_rsync_main devicesOk remoteDirOk dryRun listOnly lE hM pE1 remoteRoot
        localRoot tree).exitCode
      = (adb_rsync_main devicesOk remoteDirOk dryRun listOnly lE hM pE2 remoteRoot
        localRoot tree).exitCode := by
  unfold adb_rsync_main
  split
  · rfl
  · split
    · rfl
    · split
      · rfl
      · exact congrArg (fun b : Bool => if b then (0 : Nat) else 1)
          (sync_directory_ok_pull_independent lE hM pE1 pE2 remoteRoot localRoot tree)

/-! ### Claims -/

/-- C1 counterexample: remote store `[("p", size 10, mtime 2)]` and local
store `[("p", size 10, mtime 1)]` have the same `relativePath` with equal
sizes and differing modification times; the claim says the delta must
include `"p"` (treated as modified), but `sync_files_org`'s delta — a pure
set difference of relative path strings — is empty. -/
theorem C1_counterexample :
    "p" ∉ sync_files_org_plan [⟨"p", true, 10, 2⟩] [⟨"p", true, 10, 1⟩] ∧
    sync_files_org_plan [⟨"p", true, 10, 2⟩] [⟨"p", true, 10, 1⟩] = [] := by
  constructor
  · decide
  · decide

/-- C1 (amended): the delta computations of `sync_files_org` and of the
`sync_files` fallback compare only `relativePath` — a remote file whose
relative path is present locally is excluded from the plan no matter how
its size or modification time differ, because the listings carry no size
or mtime at all. -/
theorem C1_delta_ignores_metadata (R L : List Entry) (p : String) (e : Entry)
    (heL : e ∈ L) (hfile : e.isFile = true) (hpath : e.relPath = p) :
    p ∉ sync_files_org_plan R L ∧
    ∀ lines : List String, ∀ store : LocalStore, ∀ q ∈ localFilesOf store,
      q ∉ toDownload lines store := by
  constructor
  · intro hmem
    exact (mem_sync_files_org_plan.mp hmem).2 ⟨e, heL, hfile, hpath⟩
  · intro lines store q hq hmem
    exact (mem_toDownload.mp hmem).2 hq

/-- Witness for C1 (amended) at the staleness example: the local record
`("p", 10, 1)` is a local file named `"p"`, and `"p"` is excluded from the
plan against remote `("p", 10, 2)`. -/
theorem C1_delta_ignores_metadata_witness :
    ((⟨"p", true, 10, 1⟩ : Entry) ∈ [(⟨"p", true, 10, 1⟩ : Entry)] ∧
      (⟨"p", true, 10, 1⟩ : Entry).isFile = true ∧
      (⟨"p", true, 10, 1⟩ : Entry).relPath = "p") ∧
    "p" ∉ sync_files_org_plan [⟨"p", true, 10, 2⟩] [⟨"p", true, 10, 1⟩] :=
  ⟨⟨List.mem_singleton.mpr rfl, rfl, rfl⟩,
   (C1_delta_ignores_metadata [⟨"p", true, 10, 2⟩] [⟨"p", true, 10, 1⟩] "p"
      ⟨"p", true, 10, 1⟩ (List.mem_singleton.mpr rfl) rfl rfl).1⟩

/-- C2: the `sync_files_org` delta contains exactly the remote regular
files (not trash-marked) whose relative path is absent from the local
listing; in particular every remote record whose relative path is present
locally — with matching fields or not — is excluded.  Instantiating with
`R = [(p1,10,t1),(p2,20,t2)]`, `L = [(p1,10,t1)]` yields exactly `{p2}`. -/
theorem C2_delta_exact (R L : List Entry) (p : String) :
    p ∈ sync_files_org_plan R L ↔
      (∃ e ∈ R, e.isFile = true ∧
        strStartsWith (basename e.relPath) ".trashed" = false ∧ e.relPath = p) ∧
      ¬ (∃ e ∈ L, e.isFile = true ∧ e.relPath = p) :=
  mem_sync_files_org_plan

/-- C3: the `sync_files` fallback is additive-only.  A path absent from
the remote candidate set is never written (its store entry is unchanged),
never reported failed, never reported skipped; and every path present in
the final store was either there before the run or is a destination
derived from a plan entry. -/
theorem C3_additive_only (lines : List String) (store : LocalStore)
    (f g : String → Bool) (c : String → Nat) (p : String)
    (hp : p ∉ remoteCandidates lines) :
    storeLookup (sync_files_fallback lines store f g c).finalStore p
        = storeLookup store p ∧
    p ∉ (sync_files_fallback lines store f g c).failed ∧
    p ∉ (sync_files_fallback lines store f g c).skipped ∧
    ∀ q ∈ (sync_files_fallback lines store f g c).finalStore.map Prod.fst,
      q ∈ store.map Prod.fst ∨ q ∈ toDownload lines store := by
  obtain ⟨h1, h2, h3⟩ := sync_files_fallback_frame lines store f g c hp
  exact ⟨h1, h2, h3, fun q hq => sync_files_fallback_writes lines store f g c hq⟩

/-- Witness for C3: a local-only file `keep.mp4` is left untouched by a
run that downloads `a.mp4`. -/
theorem C3_additive_only_witness :
    "keep.mp4" ∉ remoteCandidates ["/sdcard/DCIM/Camera/a.mp4"] ∧
    storeLookup (sync_files_fallback ["/sdcard/DCIM/Camera/a.mp4"] [("keep.mp4", 7)]
        (fun _ => true) (fun _ => true) (fun _ => 0)).finalStore "keep.mp4"
      = storeLookup [("keep.mp4", 7)] "keep.mp4" :=
  ⟨by decide,
   (C3_additive_only ["/sdcard/DCIM/Camera/a.mp4"] [("keep.mp4", 7)]
      (fun _ => true) (fun _ => true) (fun _ => 0) "keep.mp4" (by decide)).1⟩

/-- C4: idempotence of the fallback sync.  If every planned file's source
is found and its pull succeeds, then with an unchanged remote store a
second run computes an empty delta and performs zero pulls (it takes the
`已是最新狀態` early return, leaving the store untouched). -/
theorem C4_idempotent (lines : List String) (store : LocalStore)
    (f g : String → Bool) (c : String → Nat)
    (hall : ∀ r ∈ toDownload lines store, f r = true ∧ g r = true) :
    toDownload lines (sync_files_fallback lines store f g c).finalStore = [] ∧
    sync_files_fallback lines (sync_files_fallback lines store f g c).finalStore f g c
      = ⟨0, (sync_files_fallback lines store f g c).finalStore, 0, 0, [], []⟩ := by
  have h := toDownload_after_success lines store f g c hall
  exact ⟨h, sync_files_fallback_empty_plan _ _ _ _ _ h⟩

/-- Witness for C4: after downloading `a.mp4` into an empty store, the
second run's delta is empty. -/
theorem C4_idempotent_witness :
    (∀ r ∈ toDownload ["/sdcard/DCIM/Camera/a.mp4"] ([] : LocalStore),
        (fun _ : String => true) r = true ∧ (fun _ : String => true) r = true) ∧
    toDownload ["/sdcard/DCIM/Camera/a.mp4"]
        (sync_files_fallback ["/sdcard/DCIM/Camera/a.mp4"] [] (fun _ => true)
          (fun _ => true) (fun _ => 0)).finalStore = [] :=
  ⟨fun _ _ => ⟨rfl, rfl⟩,
   (C4_idempotent ["/sdcard/DCIM/Camera/a.mp4"] [] (fun _ => true) (fun _ => true)
      (fun _ => 0) (fun _ _ => ⟨rfl, rfl⟩)).1⟩

/-- C5: evaluation of `adb-rsync.py` `sync_file` at a failing fetch
(local copy absent, hashes unavailable, `adb pull` exiting non-zero):
the function reports success.  `run_adb_command` is called with
`check=False`, under which it never returns `None`, so the
`Failed to pull` recording branch is unreachable and a fetch failure is
counted as a successful sync instead of being recorded. -/
theorem C5_pull_failure_reported_success : sync_file false false false = true := by
  decide

/-- C6: when the device is unreachable or the remote root fails
`test -d`, `adb-rsync.py` `main` exits with status 1 before any transfer
— no pull is issued, no local directory is created, nothing is listed —
and `camera.py`'s `check_adb` likewise exits 1 when no device is
connected. -/
theorem C6_store_unavailable_fatal (devicesOk remoteDirOk dryRun listOnly : Bool)
    (lE hM pE : String → Bool) (remoteRoot localRoot : String) (tree : List RNode)
    (adbInstalled deviceConnected : Bool)
    (h : devicesOk = false ∨ remoteDirOk = false) :
    (adb_rsync_main devicesOk remoteDirOk dryRun listOnly lE hM pE remoteRoot
        localRoot tree).exitCode = 1 ∧
    (adb_rsync_main devicesOk remoteDirOk dryRun listOnly lE hM pE remoteRoot
        localRoot tree).pulls = [] ∧
    (adb_rsync_main devicesOk remoteDirOk dryRun listOnly lE hM pE remoteRoot
        localRoot tree).dirsCreated = [] ∧
    (adb_rsync_main devicesOk remoteDirOk dryRun listOnly lE hM pE remoteRoot
        localRoot tree).listed = [] ∧
    (deviceConnected = false → check_adb adbInstalled deviceConnected = some 1) := by
  have hmain : adb_rsync_main devicesOk remoteDirOk dryRun listOnly lE hM pE
      remoteRoot localRoot tree = ⟨1, [], [], [], 0, 0⟩ := by
    rcases h with h | h
    · subst h
      unfold adb_rsync_main
      rfl
    · subst h
      unfold adb_rsync_main
      cases devicesOk
      · rfl
      · rfl
  rw [hmain]
  refine ⟨rfl, rfl, rfl, rfl, fun hd => ?_⟩
  subst hd
  unfold check_adb
  cases adbInstalled <;> rfl

/-- Witness for C6: with no device connected, the run exits 1 with no
pulls. -/
theorem C6_store_unavailable_fatal_witness :
    ((false : Bool) = false ∨ (true : Bool) = false) ∧
    (adb_rsync_main false true false false (fun _ => true) (fun _ => true)
        (fun _ => true) "/sdcard/DCIM/Camera" "/tmp/cam" []).exitCode = 1 ∧
    check_adb true false = some 1 := by
  have h := C6_store_unavailable_fatal false true false false (fun _ => true)
    (fun _ => true) (fun _ => true) "/sdcard/DCIM/Camera" "/tmp/cam" [] true false
    (Or.inl rfl)
  exact ⟨Or.inl rfl, h.1, h.2.2.2.2 rfl⟩

/-- C7 counterexample: in the `sync_files` fallback, the single planned
file `a.mp4` fails its pull (`失敗` is printed and the summary reports
`0/1`), yet the run returns normally and the process exit status is 0 —
the claim that the run exits non-zero whenever a per-file transfer error
occurred is false. -/
theorem C7_counterexample :
    (sync_files_fallback ["/sdcard/DCIM/Camera/a.mp4"] [] (fun _ => true)
        (fun _ => false) (fun _ => 0)).failed = ["a.mp4"] ∧
    (sync_files_fallback ["/sdcard/DCIM/Camera/a.mp4"] [] (fun _ => true)
        (fun _ => false) (fun _ => 0)).success = 0 ∧
    (sync_files_fallback ["/sdcard/DCIM/Camera/a.mp4"] [] (fun _ => true)
        (fun _ => false) (fun _ => 0)).attempted = 1 ∧
    (sync_files_fallback ["/sdcard/DCIM/Camera/a.mp4"] [] (fun _ => true)
        (fun _ => false) (fun _ => 0)).exitCode = 0 := by
  refine ⟨?_, ?_, ?_, ?_⟩ <;> decide

/-- C7 (amended): per-file outcomes are aggregated into the
succeeded/attempted summary, but per-file transfer errors never produce a
non-zero exit status: the `camera.py` sync path always exits 0 with
`success + failed + skipped = attempted`, `adb-rsync.py`'s `sync_file`
reports success even for a failing pull, and the `adb-rsync.py` exit
status does not depend on the pull-success oracle at all (its non-zero
exits come only from empty directory listings). -/
theorem C7_amended :
    (∀ lines : List String, ∀ store : LocalStore, ∀ f g : String → Bool,
      ∀ c : String → Nat,
      (sync_files_fallback lines store f g c).exitCode = 0 ∧
      (sync_files_fallback lines store f g c).success
        + (sync_files_fallback lines store f g c).failed.length
        + (sync_files_fallback lines store f g c).skipped.length
        = (sync_files_fallback lines store f g c).attempted) ∧
    (∀ a b c : Bool, sync_file a b c = true) ∧
    (∀ devicesOk remoteDirOk dryRun listOnly : Bool, ∀ lE hM pE1 pE2 : String → Bool,
      ∀ remoteRoot localRoot : String, ∀ tree : List RNode,
      (adb_rsync_main devicesOk remoteDirOk dryRun listOnly lE hM pE1 remoteRoot
          localRoot tree).exitCode
        = (adb_rsync_main devicesOk remoteDirOk dryRun listOnly lE hM pE2 remoteRoot
          localRoot tree).exitCode) :=
  ⟨fun lines store f g c =>
      ⟨sync_files_fallback_exit lines store f g c,
       sync_files_fallback_summary lines store f g c⟩,
   sync_file_true,
   fun devicesOk remoteDirOk dryRun listOnly lE hM pE1 pE2 rr lr tree =>
      adb_exit_pull_independent devicesOk remoteDirOk dryRun listOnly lE hM pE1 pE2
        rr lr tree⟩

/-- C8: a remote entry whose basename starts with `.trashed` never
appears in the `get_file_list` remote listing (the `find` command
excludes it with `-not -name '.trashed*'`), and hence never appears in
the `sync_files_org` plan. -/
theorem C8_trash_excluded (entries R L : List Entry) (p : String)
    (hp : strStartsWith (basename p) ".trashed" = true) :
    p ∉ get_file_list entries true ∧ p ∉ sync_files_org_plan R L := by
  constructor
  · intro h
    rcases mem_get_file_list_remote.mp h with ⟨e, _, _, ht, hpe⟩
    rw [hpe] at ht
    rw [ht] at hp
    cases hp
  · intro h
    rcases (mem_sync_files_org_plan.mp h).1 with ⟨e, _, _, ht, hpe⟩
    rw [hpe] at ht
    rw [ht] at hp
    cases hp

/-- Witness for C8: `.trashed-x.jpg` is absent from the listing of a
remote store that contains it, and from the corresponding plan. -/
theorem C8_trash_excluded_witness :
    strStartsWith (basename ".trashed-x.jpg") ".trashed" = true ∧
    ".trashed-x.jpg" ∉ get_file_list [⟨".trashed-x.jpg", true, 1, 1⟩] true := by
  have h := C8_trash_excluded [⟨".trashed-x.jpg", true, 1, 1⟩]
    [⟨".trashed-x.jpg", true, 1, 1⟩] [] ".trashed-x.jpg" (by decide)
  exact ⟨by decide, h.1⟩

/-- C9: in dry-run/list-only mode, `adb-rsync.py` issues no pull, creates
no local directory, exits 0, and the set of paths it prints is exactly
the set of files a transfer run over the same tree would hand to
`sync_file`. -/
theorem C9_list_only_no_transfer (dr lo : Bool) (lE hM pE : String → Bool)
    (rr lr : String) (tree : List RNode) (h : (dr || lo) = true) :
    (adb_rsync_main true true dr lo lE hM pE rr lr tree).pulls = [] ∧
    (adb_rsync_main true true dr lo lE hM pE rr lr tree).dirsCreated = [] ∧
    (adb_rsync_main true true dr lo lE hM pE rr lr tree).exitCode = 0 ∧
    ∀ p : String,
      p ∈ (adb_rsync_main true true dr lo lE hM pE rr lr tree).listed
        ↔ p ∈ (syncItems lE hM pE rr lr tree).attempted := by
  have hmain : adb_rsync_main true true dr lo lE hM pE rr lr tree
      = ⟨0, [], [], listedFiles rr tree, 0, 0⟩ := by
    unfold adb_rsync_main
    rw [if_neg (by decide), if_neg (by decide), if_pos h]
  rw [hmain]
  refine ⟨rfl, rfl, rfl, fun p => ?_⟩
  rw [syncItems_attempted]
  exact mem_listedFiles rr tree

/-- Witness for C9 on a one-file tree. -/
theorem C9_list_only_no_transfer_witness :
    ((false || true) = true) ∧
    (adb_rsync_main true true false true (fun _ => true) (fun _ => true)
        (fun _ => true) "/sdcard/DCIM/Camera" "/tmp/cam"
        [RNode.file "a.mp4" 1]).pulls = [] :=
  ⟨rfl,
   (C9_list_only_no_transfer false true (fun _ => true) (fun _ => true)
      (fun _ => true) "/sdcard/DCIM/Camera" "/tmp/cam" [RNode.file "a.mp4" 1] rfl).1⟩

/-- C10: the `sync_files` fallback excludes hidden files on both sides —
a path whose basename starts with `.` is in neither the remote candidate
set nor the local file set nor the plan, and adding a hidden file to the
local store does not change the plan, so a hidden local file never
suppresses (or causes) any transfer. -/
theorem C10_hidden_excluded (lines : List String) (store : LocalStore)
    (p : String) (v : Nat) (hp : strStartsWith (basename p) "." = true) :
    p ∉ remoteCandidates lines ∧
    p ∉ localFilesOf store ∧
    p ∉ toDownload lines store ∧
    toDownload lines ((p, v) :: store) = toDownload lines store := by
  have h1 : p ∉ remoteCandidates lines := fun h => by
    rw [remoteCandidates_not_hidden h] at hp
    cases hp
  have h2 : p ∉ localFilesOf store := fun h => by
    rw [(mem_localFilesOf.mp h).2] at hp
    cases hp
  refine ⟨h1, h2, fun h => h1 (mem_toDownload.mp h).1, ?_⟩
  have hloc : localFilesOf ((p, v) :: store) = localFilesOf store := by
    unfold localFilesOf
    rw [List.map_cons, List.filter_cons_of_neg (by simp [hp])]
  rw [toDownload, toDownload, hloc]

/-- Witness for C10: the hidden local file `.hidden.mp4` is excluded
everywhere and does not change the plan. -/
theorem C10_hidden_excluded_witness :
    strStartsWith (basename ".hidden.mp4") "." = true ∧
    toDownload ["/sdcard/DCIM/Camera/a.mp4"] [(".hidden.mp4", 0)]
      = toDownload ["/sdcard/DCIM/Camera/a.mp4"] [] :=
  ⟨by decide,
   (C10_hidden_excluded ["/sdcard/DCIM/Camera/a.mp4"] [] ".hidden.mp4" 0
      (by decide)).2.2.2⟩

end Camtools

